import Mathlib

/-!
Batalha naval: board, ability masks and overlay

Shallow embedding of `batalhaNaval.c`.

* `int tab[ROWS][COLS]` and `int mat[SK_SIZE][SK_SIZE]` are fixed-size grids of
  integers (`Grid ROWS COLS`, `Grid SK_SIZE SK_SIZE`).
* Every array access of the program goes through `Grid.read` / `Grid.write`, which
  take integer indices and answer `none` when an index is outside the array, so a
  function that returns `some _` performed no out-of-range access.
* A `for (int i = 0; i < N; i++)` loop is a monadic left fold over `List.range N`,
  threading the mutated array.
* The C type `int` is modelled by `Int`.  The only arithmetic of the program is
  `orig - center + i`; `board_index_no_wrap` shows that two's-complement wrap-around
  at 32 bits cannot move such an index into or out of the board range.
-/

namespace BatalhaNaval

/-- Constant `#define ROWS 10`. -/
abbrev ROWS : Nat := 10
/-- Constant `#define COLS 10`. -/
abbrev COLS : Nat := 10
/-- Constant `#define SK_SIZE 5`. -/
abbrev SK_SIZE : Nat := 5

/-- A C array `int g[n][m]`. -/
abbrev Grid (n m : Nat) := Mathlib.Vector (Mathlib.Vector Int m) n

/-- The board `int tab[ROWS][COLS]`. -/
abbrev Board := Grid ROWS COLS

/-- An ability matrix `int mat[SK_SIZE][SK_SIZE]`. -/
abbrev Mask := Grid SK_SIZE SK_SIZE

/-- Unchecked view of a cell, for stating properties. -/
def Grid.cell {n m : Nat} (g : Grid n m) (r : Fin n) (c : Fin m) : Int :=
  (g.get r).get c

/-- Checked read of `g[r][c]`: `none` when `r` or `c` is outside the array. -/
def Grid.read {n m : Nat} (g : Grid n m) (r c : Int) : Option Int :=
  if h : 0 ≤ r ∧ r < n ∧ 0 ≤ c ∧ c < m then
    some ((g.get ⟨r.toNat, by omega⟩).get ⟨c.toNat, by omega⟩)
  else none

/-- Checked assignment `g[r][c] = v`: `none` when `r` or `c` is outside the array. -/
def Grid.write {n m : Nat} (g : Grid n m) (r c : Int) (v : Int) : Option (Grid n m) :=
  if h : 0 ≤ r ∧ r < n ∧ 0 ≤ c ∧ c < m then
    some (g.set ⟨r.toNat, by omega⟩
      ((g.get ⟨r.toNat, by omega⟩).set ⟨c.toNat, by omega⟩ v))
  else none

/-- The rows of a grid as plain lists. -/
def Grid.toLists {n m : Nat} (g : Grid n m) : List (List Int) :=
  g.toList.map Mathlib.Vector.toList

/-- Body of the inner loop of `inicializar_tabuleiro`: `tab[i][j] = 0`. -/
def inicializar_tabuleiro_cell (i j : Nat) (tab : Board) : Option Board :=
  Grid.write tab i j 0

/-- The inner `for j` loop of `inicializar_tabuleiro` at row `i`. -/
def inicializar_tabuleiro_row (i : Nat) (tab : Board) : Option Board :=
  (List.range COLS).foldlM (fun t j => inicializar_tabuleiro_cell i j t) tab

/-- Function `void inicializar_tabuleiro(int tab[ROWS][COLS])`. -/
def inicializar_tabuleiro (tab : Board) : Option Board :=
  (List.range ROWS).foldlM (fun t i => inicializar_tabuleiro_row i t) tab

/-- Body of the inner loop of `construir_cone` for the cell `(i, j)`. -/
def construir_cone_cell (i j : Nat) (mat : Mask) : Option Mask := do
  let center : Int := ((SK_SIZE / 2 : Nat) : Int)
  let mat ← Grid.write mat i j 0
  let diff : Int := if (j : Int) - center < 0 then -((j : Int) - center) else (j : Int) - center
  if (i : Int) ≤ 2 then
    if diff ≤ (i : Int) then Grid.write mat i j 1 else pure mat
  else pure mat

/-- The inner `for j` loop of `construir_cone` at row `i`. -/
def construir_cone_row (i : Nat) (mat : Mask) : Option Mask :=
  (List.range SK_SIZE).foldlM (fun t j => construir_cone_cell i j t) mat

/-- Function `void construir_cone(int mat[SK_SIZE][SK_SIZE])`. -/
def construir_cone (mat : Mask) : Option Mask :=
  (List.range SK_SIZE).foldlM (fun t i => construir_cone_row i t) mat

/-- Body of the inner loop of `construir_cruz` for the cell `(i, j)`. -/
def construir_cruz_cell (i j : Nat) (mat : Mask) : Option Mask :=
  let center : Int := ((SK_SIZE / 2 : Nat) : Int)
  if (i : Int) = center ∨ (j : Int) = center then Grid.write mat i j 1
  else Grid.write mat i j 0

/-- The inner `for j` loop of `construir_cruz` at row `i`. -/
def construir_cruz_row (i : Nat) (mat : Mask) : Option Mask :=
  (List.range SK_SIZE).foldlM (fun t j => construir_cruz_cell i j t) mat

/-- Function `void construir_cruz(int mat[SK_SIZE][SK_SIZE])`. -/
def construir_cruz (mat : Mask) : Option Mask :=
  (List.range SK_SIZE).foldlM (fun t i => construir_cruz_row i t) mat

/-- Body of the inner loop of `construir_octaedro` for the cell `(i, j)`. -/
def construir_octaedro_cell (i j : Nat) (mat : Mask) : Option Mask :=
  let center : Int := ((SK_SIZE / 2 : Nat) : Int)
  let radius : Int := center
  let diff_i : Int := if (i : Int) - center < 0 then -((i : Int) - center) else (i : Int) - center
  let diff_j : Int := if (j : Int) - center < 0 then -((j : Int) - center) else (j : Int) - center
  let manhattan : Int := diff_i + diff_j
  if manhattan ≤ radius then Grid.write mat i j 1
  else Grid.write mat i j 0

/-- The inner `for j` loop of `construir_octaedro` at row `i`. -/
def construir_octaedro_row (i : Nat) (mat : Mask) : Option Mask :=
  (List.range SK_SIZE).foldlM (fun t j => construir_octaedro_cell i j t) mat

/-- Function `void construir_octaedro(int mat[SK_SIZE][SK_SIZE])`. -/
def construir_octaedro (mat : Mask) : Option Mask :=
  (List.range SK_SIZE).foldlM (fun t i => construir_octaedro_row i t) mat

/-- Body of the inner loop of `aplicar_habilidade` for the mask cell `(i, j)`. -/
def aplicar_habilidade_cell (mat : Mask) (orig_r orig_c : Int) (i j : Nat)
    (tab : Board) : Option Board := do
  let center : Int := ((SK_SIZE / 2 : Nat) : Int)
  let m ← Grid.read mat i j
  if m ≠ 1 then pure tab
  else
    let board_r : Int := orig_r - center + i
    let board_c : Int := orig_c - center + j
    if board_r < 0 ∨ board_r ≥ ROWS ∨ board_c < 0 ∨ board_c ≥ COLS then pure tab
    else do
      let v ← Grid.read tab board_r board_c
      if v = 0 then Grid.write tab board_r board_c 5 else pure tab

/-- Row `i` of the mask: the inner `for j` loop of `aplicar_habilidade`. -/
def aplicar_habilidade_row (mat : Mask) (orig_r orig_c : Int) (i : Nat)
    (tab : Board) : Option Board :=
  (List.range SK_SIZE).foldlM (fun t j => aplicar_habilidade_cell mat orig_r orig_c i j t) tab

/-- Function `void aplicar_habilidade(int tab[ROWS][COLS], int mat[SK_SIZE][SK_SIZE],
    int orig_r, int orig_c)`. -/
def aplicar_habilidade (tab : Board) (mat : Mask) (orig_r orig_c : Int) : Option Board :=
  (List.range SK_SIZE).foldlM (fun t i => aplicar_habilidade_row mat orig_r orig_c i t) tab

/-- The conversion `%d` of `printf`: decimal digits, with a leading `-` when negative. -/
def printf_d (v : Int) : String :=
  if v < 0 then "-" ++ Nat.repr v.natAbs else Nat.repr v.natAbs

/-- Body of the inner loop of `imprimir_tabuleiro`: `printf("%d ", tab[i][j])`,
    appended to the text `out` already written to standard output. -/
def imprimir_tabuleiro_cell (tab : Board) (i j : Nat) (out : String) : Option String := do
  let v ← Grid.read tab i j
  pure (out ++ (printf_d v ++ " "))

/-- One iteration of the outer loop of `imprimir_tabuleiro`: the ten cells of row `i`,
    then `printf("\n")`. -/
def imprimir_tabuleiro_row (tab : Board) (i : Nat) (out : String) : Option String := do
  let out ← (List.range COLS).foldlM (fun o j => imprimir_tabuleiro_cell tab i j o) out
  pure (out ++ "\n")

/-- Function `void imprimir_tabuleiro(int tab[ROWS][COLS])`: the text on standard output after the
    call, given the text `out` written before it. -/
def imprimir_tabuleiro (tab : Board) (out : String) : Option String :=
  (List.range ROWS).foldlM (fun o i => imprimir_tabuleiro_row tab i o)
    (out ++ "Tabuleiro (0=água, 3=navio, 5=área afetada):\n\n")

/-- Lines 40 to 60 of `main`: the board handed to `imprimir_tabuleiro`.  The four local
    arrays are uninitialised when `main` starts, so their contents are parameters. -/
def main_tabuleiro (tab : Board) (cone cruz octaedro : Mask) : Option Board := do
  let tab ← inicializar_tabuleiro tab
  let tab ← Grid.write tab 2 2 3
  let tab ← Grid.write tab 2 3 3
  let tab ← Grid.write tab 2 4 3
  let tab ← Grid.write tab 6 7 3
  let tab ← Grid.write tab 7 7 3
  let cone ← construir_cone cone
  let cruz ← construir_cruz cruz
  let octaedro ← construir_octaedro octaedro
  let orig_cone_r : Int := 1
  let orig_cone_c : Int := 3
  let orig_cruz_r : Int := 4
  let orig_cruz_c : Int := 5
  let orig_oct_r : Int := 7
  let orig_oct_c : Int := 2
  let tab ← aplicar_habilidade tab cone orig_cone_r orig_cone_c
  let tab ← aplicar_habilidade tab cruz orig_cruz_r orig_cruz_c
  let tab ← aplicar_habilidade tab octaedro orig_oct_r orig_oct_c
  pure tab

/-- Function `int main(void)`: the text written to standard output and the exit code. -/
def main (tab : Board) (cone cruz octaedro : Mask) : Option (String × Int) := do
  let tab ← main_tabuleiro tab cone cruz octaedro
  let out ← imprimir_tabuleiro tab ""
  pure (out, 0)

/-! ## Definitions used to state the properties -/

/-- The grid whose cells all hold `v`. -/
def Grid.const (n m : Nat) (v : Int) : Grid n m :=
  Mathlib.Vector.replicate n (Mathlib.Vector.replicate m v)

/-- Relation `Marked P b b'`: board `b'` is `b` with the water cells selected by `P` set to 5. -/
def Marked (P : Fin ROWS → Fin COLS → Prop) (b b' : Board) : Prop :=
  ∀ r c, (Grid.cell b r c = 0 ∧ P r c → Grid.cell b' r c = 5) ∧
    (¬ (Grid.cell b r c = 0 ∧ P r c) → Grid.cell b' r c = Grid.cell b r c)

/-- Mask cell `(i, j)` holds 1 and is projected onto board cell `(r, c)`. -/
def Hits (mat : Mask) (orig_r orig_c : Int) (i j : Nat) (r : Fin ROWS) (c : Fin COLS) : Prop :=
  Grid.read mat i j = some 1 ∧ ((r : Nat) : Int) = orig_r - 2 + i ∧ ((c : Nat) : Int) = orig_c - 2 + j

/-- Mask cell selected by the board cell `(r, c)`: some mask cell holding 1 is projected onto it. -/
def Covered (mat : Mask) (orig_r orig_c : Int) (r : Fin ROWS) (c : Fin COLS) : Prop :=
  ∃ i ∈ List.range SK_SIZE, ∃ j ∈ List.range SK_SIZE, Hits mat orig_r orig_c i j r c

/-- A board with the ship of `main` at `(2,2)`, `(2,3)`, `(2,4)` and water elsewhere. -/
def shipBoard : Board :=
  (Grid.const ROWS COLS 0).set 2 (Mathlib.Vector.replicate COLS 0 |>.set 2 3 |>.set 3 3 |>.set 4 3)

/-- Relation `Filled S f g g'`: grid `g'` holds `f r c` at the cells selected by `S` and
    agrees with `g` elsewhere. -/
def Filled {n m : Nat} (S : Fin n → Fin m → Prop) (f : Fin n → Fin m → Int)
    (g g' : Grid n m) : Prop :=
  ∀ r c, (S r c → Grid.cell g' r c = f r c) ∧ (¬ S r c → Grid.cell g' r c = Grid.cell g r c)

/-- The matrix drawn in the comment above `construir_cone`. -/
def cone_matrix : Mask :=
  ⟨[⟨[0, 0, 1, 0, 0], rfl⟩, ⟨[0, 1, 1, 1, 0], rfl⟩, ⟨[1, 1, 1, 1, 1], rfl⟩,
    ⟨[0, 0, 0, 0, 0], rfl⟩, ⟨[0, 0, 0, 0, 0], rfl⟩], rfl⟩

/-- The plus sign built by `construir_cruz`. -/
def cruz_matrix : Mask :=
  ⟨[⟨[0, 0, 1, 0, 0], rfl⟩, ⟨[0, 0, 1, 0, 0], rfl⟩, ⟨[1, 1, 1, 1, 1], rfl⟩,
    ⟨[0, 0, 1, 0, 0], rfl⟩, ⟨[0, 0, 1, 0, 0], rfl⟩], rfl⟩

/-- The diamond built by `construir_octaedro`. -/
def octaedro_matrix : Mask :=
  ⟨[⟨[0, 0, 1, 0, 0], rfl⟩, ⟨[0, 1, 1, 1, 0], rfl⟩, ⟨[1, 1, 1, 1, 1], rfl⟩,
    ⟨[0, 1, 1, 1, 0], rfl⟩, ⟨[0, 0, 1, 0, 0], rfl⟩], rfl⟩

/-- The header written by `imprimir_tabuleiro`, without the two line feeds that follow it. -/
def header_line : String := "Tabuleiro (0=água, 3=navio, 5=área afetada):"

/-- Concatenation of a list of texts, in order. -/
def concat_text (parts : List String) : String :=
  parts.foldr (fun s acc => s ++ acc) ""

/-- The ten integers of board row `i`, in order, each followed by one space. -/
def row_text (tab : Board) (i : Fin ROWS) : String :=
  concat_text ((List.finRange COLS).map fun j => printf_d (Grid.cell tab i j) ++ " ")

/-- The lines of a text: maximal runs of characters other than line feed, each line feed
    closing one line. -/
def lines_of : List Char → List (List Char)
  | [] => []
  | c :: cs =>
    if c = '\n' then [] :: lines_of cs
    else
      match lines_of cs with
      | [] => [[c]]
      | l :: ls => (c :: l) :: ls

/-- Reduction of an integer to the range of a 32-bit two's-complement `int`. -/
def wrap32 (x : Int) : Int :=
  (x + 2147483648) % 4294967296 - 2147483648

/-- Number of cells of row `i` of a grid that hold `v`. -/
def Grid.row_count {n m : Nat} (g : Grid n m) (i : Fin n) (v : Int) : Nat :=
  (g.get i).toList.count v

/-- Number of cells of column `j` of a grid that hold `v`. -/
def Grid.col_count {n m : Nat} (g : Grid n m) (j : Fin m) (v : Int) : Nat :=
  (g.toList.map fun row => row.get j).count v

/-- Number of cells of a grid that hold `v`. -/
def Grid.count {n m : Nat} (g : Grid n m) (v : Int) : Nat :=
  (g.toList.map fun row => row.toList.count v).sum

/-- Lines 40 to 44 of `main`: the board with the two ships, before any ability is applied. -/
def main_navios (tab : Board) : Option Board := do
  let tab ← inicializar_tabuleiro tab
  let tab ← Grid.write tab 2 2 3
  let tab ← Grid.write tab 2 3 3
  let tab ← Grid.write tab 2 4 3
  let tab ← Grid.write tab 6 7 3
  let tab ← Grid.write tab 7 7 3
  pure tab

/-- The board of `main` once the ships are placed. -/
def navios_board : Board :=
  ⟨[⟨[0, 0, 0, 0, 0, 0, 0, 0, 0, 0], rfl⟩, ⟨[0, 0, 0, 0, 0, 0, 0, 0, 0, 0], rfl⟩,
    ⟨[0, 0, 3, 3, 3, 0, 0, 0, 0, 0], rfl⟩, ⟨[0, 0, 0, 0, 0, 0, 0, 0, 0, 0], rfl⟩,
    ⟨[0, 0, 0, 0, 0, 0, 0, 0, 0, 0], rfl⟩, ⟨[0, 0, 0, 0, 0, 0, 0, 0, 0, 0], rfl⟩,
    ⟨[0, 0, 0, 0, 0, 0, 0, 3, 0, 0], rfl⟩, ⟨[0, 0, 0, 0, 0, 0, 0, 3, 0, 0], rfl⟩,
    ⟨[0, 0, 0, 0, 0, 0, 0, 0, 0, 0], rfl⟩, ⟨[0, 0, 0, 0, 0, 0, 0, 0, 0, 0], rfl⟩], rfl⟩

/-! ## Array access lemmas -/

theorem Grid.ext_cell {n m : Nat} {g g' : Grid n m}
    (h : ∀ r c, Grid.cell g r c = Grid.cell g' r c) : g = g' := by
  apply Mathlib.Vector.ext
  intro r
  apply Mathlib.Vector.ext
  intro c
  exact h r c

theorem Grid.read_in_range {n m : Nat} (g : Grid n m) (r c : Int)
    (h : 0 ≤ r ∧ r < n ∧ 0 ≤ c ∧ c < m) :
    Grid.read g r c = some (Grid.cell g ⟨r.toNat, by omega⟩ ⟨c.toNat, by omega⟩) := by
  unfold Grid.read Grid.cell
  rw [dif_pos h]

theorem Grid.read_fin {n m : Nat} (g : Grid n m) (r : Fin n) (c : Fin m) :
    Grid.read g (r : Nat) (c : Nat) = some (Grid.cell g r c) := by
  have hr := r.isLt
  have hc := c.isLt
  rw [Grid.read_in_range g _ _ (by omega)]
  simp

theorem Grid.read_out_of_range {n m : Nat} (g : Grid n m) (r c : Int)
    (h : ¬ (0 ≤ r ∧ r < n ∧ 0 ≤ c ∧ c < m)) : Grid.read g r c = none := by
  unfold Grid.read
  rw [dif_neg h]

theorem Grid.write_in_range {n m : Nat} (g : Grid n m) (r c v : Int)
    (h : 0 ≤ r ∧ r < n ∧ 0 ≤ c ∧ c < m) :
    ∃ g', Grid.write g r c v = some g' ∧ ∀ (r' : Fin n) (c' : Fin m),
      Grid.cell g' r' c' =
        if ((r' : Nat) : Int) = r ∧ ((c' : Nat) : Int) = c then v else Grid.cell g r' c' := by
  unfold Grid.write
  rw [dif_pos h]
  refine ⟨_, rfl, ?_⟩
  intro r' c'
  unfold Grid.cell
  by_cases hr : ((r' : Nat) : Int) = r
  · have e : (⟨r.toNat, by omega⟩ : Fin n) = r' := by
      apply Fin.ext; simp; omega
    rw [e, Mathlib.Vector.get_set_same]
    by_cases hc : ((c' : Nat) : Int) = c
    · have e' : (⟨c.toNat, by omega⟩ : Fin m) = c' := by
        apply Fin.ext; simp; omega
      rw [e', Mathlib.Vector.get_set_same, if_pos ⟨hr, hc⟩]
    · have e' : (⟨c.toNat, by omega⟩ : Fin m) ≠ c' := by
        intro h'; apply hc; rw [← h']; simp; omega
      rw [Mathlib.Vector.get_set_of_ne e', if_neg (fun hh => hc hh.2)]
  · have e : (⟨r.toNat, by omega⟩ : Fin n) ≠ r' := by
      intro h'; apply hr; rw [← h']; simp; omega
    rw [Mathlib.Vector.get_set_of_ne e, if_neg (fun hh => hr hh.1)]

/-! ## Overlay -/

theorem Marked.of_unchanged {P : Fin ROWS → Fin COLS → Prop} {b : Board}
    (h : ∀ r c, Grid.cell b r c = 0 → ¬ P r c) : Marked P b b := by
  intro r c
  exact ⟨fun hh => absurd hh.2 (h r c hh.1), fun _ => rfl⟩

theorem Marked.comp {P Q : Fin ROWS → Fin COLS → Prop} {b b1 b2 : Board}
    (h1 : Marked P b b1) (h2 : Marked Q b1 b2) : Marked (fun r c => P r c ∨ Q r c) b b2 := by
  intro r c
  obtain ⟨p1, n1⟩ := h1 r c
  obtain ⟨p2, n2⟩ := h2 r c
  by_cases hp : Grid.cell b r c = 0 ∧ P r c
  · have e1 := p1 hp
    have e2 := n2 (fun hh => by rw [e1] at hh; exact absurd hh.1 (by decide))
    exact ⟨fun _ => by rw [e2, e1], fun hh => absurd ⟨hp.1, Or.inl hp.2⟩ hh⟩
  · have e1 := n1 hp
    by_cases hq : Grid.cell b r c = 0 ∧ Q r c
    · have e2 := p2 ⟨by rw [e1]; exact hq.1, hq.2⟩
      exact ⟨fun _ => e2, fun hh => absurd ⟨hq.1, Or.inr hq.2⟩ hh⟩
    · have e2 := n2 (fun hh => hq ⟨by rw [← e1]; exact hh.1, hh.2⟩)
      refine ⟨fun hh => ?_, fun _ => by rw [e2, e1]⟩
      rcases hh.2 with h' | h'
      · exact absurd ⟨hh.1, h'⟩ hp
      · exact absurd ⟨hh.1, h'⟩ hq

theorem Marked.congr {P Q : Fin ROWS → Fin COLS → Prop} {b b' : Board}
    (hPQ : ∀ r c, P r c ↔ Q r c) (h : Marked P b b') : Marked Q b b' := by
  intro r c
  obtain ⟨p, n⟩ := h r c
  exact ⟨fun hh => p ⟨hh.1, (hPQ r c).2 hh.2⟩, fun hh => n (fun h' => hh ⟨h'.1, (hPQ r c).1 h'.2⟩)⟩

theorem Marked.unique {P : Fin ROWS → Fin COLS → Prop} {b b1 b2 : Board}
    (h1 : Marked P b b1) (h2 : Marked P b b2) : b1 = b2 := by
  apply Grid.ext_cell
  intro r c
  by_cases hp : Grid.cell b r c = 0 ∧ P r c
  · rw [(h1 r c).1 hp, (h2 r c).1 hp]
  · rw [(h1 r c).2 hp, (h2 r c).2 hp]

/-- A fold of marking steps marks the union of what the steps mark. -/
theorem foldlM_marked {ι : Type} (f : Board → ι → Option Board)
    (P : ι → Fin ROWS → Fin COLS → Prop) (l : List ι)
    (hf : ∀ x ∈ l, ∀ t, ∃ t', f t x = some t' ∧ Marked (P x) t t') :
    ∀ t, ∃ t', l.foldlM f t = some t' ∧ Marked (fun r c => ∃ x ∈ l, P x r c) t t' := by
  induction l with
  | nil =>
    intro t
    exact ⟨t, rfl, Marked.of_unchanged (fun r c _ hh => by simp at hh)⟩
  | cons x xs ih =>
    intro t
    obtain ⟨t1, e1, m1⟩ := hf x (List.mem_cons_self x xs) t
    obtain ⟨t2, e2, m2⟩ := ih (fun y hy => hf y (List.mem_cons_of_mem x hy)) t1
    refine ⟨t2, ?_, ?_⟩
    · rw [List.foldlM_cons, e1]
      exact e2
    · refine Marked.congr ?_ (Marked.comp m1 m2)
      intro r c
      simp

/-- The guarded assignment `if (tab[R][C] == 0) tab[R][C] = 5;` at an in-range cell. -/
theorem mark_in_range (tab : Board) (R C : Int)
    (hin : 0 ≤ R ∧ R < (ROWS : Nat) ∧ 0 ≤ C ∧ C < (COLS : Nat)) :
    ∃ t', ((Grid.read tab R C).bind fun v =>
        if v = 0 then Grid.write tab R C 5 else some tab) = some t' ∧
      Marked (fun r c => ((r : Nat) : Int) = R ∧ ((c : Nat) : Int) = C) tab t' := by
  have er : ∀ r : Fin ROWS, ((r : Nat) : Int) = R → r = ⟨R.toNat, by omega⟩ := by
    intro r h; apply Fin.ext; simp only; omega
  have ec : ∀ c : Fin COLS, ((c : Nat) : Int) = C → c = ⟨C.toNat, by omega⟩ := by
    intro c h; apply Fin.ext; simp only; omega
  rw [Grid.read_in_range tab R C hin, Option.some_bind]
  by_cases hv : Grid.cell tab ⟨R.toNat, by omega⟩ ⟨C.toNat, by omega⟩ = 0
  · rw [if_pos hv]
    obtain ⟨g', eg, hg⟩ := Grid.write_in_range tab R C 5 hin
    refine ⟨g', eg, ?_⟩
    intro r c
    rw [hg r c]
    constructor
    · rintro ⟨_, hrc⟩
      rw [if_pos hrc]
    · intro hn
      by_cases hrc : ((r : Nat) : Int) = R ∧ ((c : Nat) : Int) = C
      · exfalso
        apply hn
        refine ⟨?_, hrc⟩
        rw [er r hrc.1, ec c hrc.2]
        exact hv
      · rw [if_neg hrc]
  · rw [if_neg hv]
    refine ⟨tab, rfl, Marked.of_unchanged ?_⟩
    intro r c h0 hrc
    apply hv
    rw [← er r hrc.1, ← ec c hrc.2]
    exact h0

theorem aplicar_habilidade_cell_eq (mat : Mask) (orig_r orig_c : Int) (i j : Nat) (tab : Board) :
    aplicar_habilidade_cell mat orig_r orig_c i j tab =
      (Grid.read mat i j).bind fun m =>
        if m ≠ 1 then some tab
        else if orig_r - 2 + i < 0 ∨ orig_r - 2 + i ≥ 10 ∨ orig_c - 2 + j < 0 ∨ orig_c - 2 + j ≥ 10
        then some tab
        else (Grid.read tab (orig_r - 2 + i) (orig_c - 2 + j)).bind fun v =>
          if v = 0 then Grid.write tab (orig_r - 2 + i) (orig_c - 2 + j) 5 else some tab :=
  rfl

theorem aplicar_habilidade_cell_marked (mat : Mask) (orig_r orig_c : Int) (i j : Nat)
    (hi : i < SK_SIZE) (hj : j < SK_SIZE) (tab : Board) :
    ∃ t', aplicar_habilidade_cell mat orig_r orig_c i j tab = some t' ∧
      Marked (Hits mat orig_r orig_c i j) tab t' := by
  have hm : Grid.read mat i j = some (Grid.cell mat ⟨i, hi⟩ ⟨j, hj⟩) :=
    Grid.read_fin mat ⟨i, hi⟩ ⟨j, hj⟩
  rw [aplicar_habilidade_cell_eq, hm, Option.some_bind]
  by_cases h1 : Grid.cell mat ⟨i, hi⟩ ⟨j, hj⟩ = 1
  · rw [if_neg (not_not.mpr h1)]
    by_cases hb : orig_r - 2 + i < 0 ∨ orig_r - 2 + i ≥ 10 ∨ orig_c - 2 + j < 0 ∨
        orig_c - 2 + j ≥ 10
    · rw [if_pos hb]
      refine ⟨tab, rfl, Marked.of_unchanged ?_⟩
      intro r c _ hh
      have hr : (r : Nat) < 10 := r.isLt
      have hc : (c : Nat) < 10 := c.isLt
      obtain ⟨_, er, ec⟩ := hh
      omega
    · rw [if_neg hb]
      obtain ⟨t', et, mt⟩ := mark_in_range tab (orig_r - 2 + i) (orig_c - 2 + j)
        (by simp only [Nat.cast_ofNat]; omega)
      refine ⟨t', et, Marked.congr ?_ mt⟩
      intro r c
      unfold Hits
      rw [hm, h1]
      simp
  · rw [if_pos h1]
    refine ⟨tab, rfl, Marked.of_unchanged ?_⟩
    intro r c _ hh
    apply h1
    have := hh.1
    rw [hm] at this
    exact Option.some.inj this

theorem aplicar_habilidade_row_marked (mat : Mask) (orig_r orig_c : Int) (i : Nat)
    (hi : i < SK_SIZE) (tab : Board) :
    ∃ t', aplicar_habilidade_row mat orig_r orig_c i tab = some t' ∧
      Marked (fun r c => ∃ j ∈ List.range SK_SIZE, Hits mat orig_r orig_c i j r c) tab t' :=
  foldlM_marked (fun t j => aplicar_habilidade_cell mat orig_r orig_c i j t)
    (fun j => Hits mat orig_r orig_c i j) (List.range SK_SIZE)
    (fun j hj t => aplicar_habilidade_cell_marked mat orig_r orig_c i j hi (List.mem_range.mp hj) t)
    tab

theorem aplicar_habilidade_marked (tab : Board) (mat : Mask) (orig_r orig_c : Int) :
    ∃ t', aplicar_habilidade tab mat orig_r orig_c = some t' ∧
      Marked (Covered mat orig_r orig_c) tab t' :=
  foldlM_marked (fun t i => aplicar_habilidade_row mat orig_r orig_c i t)
    (fun i r c => ∃ j ∈ List.range SK_SIZE, Hits mat orig_r orig_c i j r c) (List.range SK_SIZE)
    (fun i hi t => aplicar_habilidade_row_marked mat orig_r orig_c i (List.mem_range.mp hi) t)
    tab

/-- The covering condition, in the indices of the board cell. -/
theorem covered_iff (mat : Mask) (orig_r orig_c : Int) (r : Fin ROWS) (c : Fin COLS) :
    Covered mat orig_r orig_c r c ↔
      (0 ≤ ((r : Nat) : Int) - orig_r + 2 ∧ ((r : Nat) : Int) - orig_r + 2 ≤ 4 ∧
        0 ≤ ((c : Nat) : Int) - orig_c + 2 ∧ ((c : Nat) : Int) - orig_c + 2 ≤ 4 ∧
        Grid.read mat (((r : Nat) : Int) - orig_r + 2) (((c : Nat) : Int) - orig_c + 2) = some 1) := by
  unfold Covered Hits
  constructor
  · rintro ⟨i, hi, j, hj, hm, er, ec⟩
    have hi' : i < 5 := List.mem_range.mp hi
    have hj' : j < 5 := List.mem_range.mp hj
    have e1 : ((r : Nat) : Int) - orig_r + 2 = i := by omega
    have e2 : ((c : Nat) : Int) - orig_c + 2 = j := by omega
    rw [e1, e2]
    exact ⟨by omega, by omega, by omega, by omega, hm⟩
  · rintro ⟨h1, h2, h3, h4, hm⟩
    have e5 : SK_SIZE = 5 := rfl
    refine ⟨(((r : Nat) : Int) - orig_r + 2).toNat, List.mem_range.mpr (by omega),
      (((c : Nat) : Int) - orig_c + 2).toNat, List.mem_range.mpr (by omega), ?_, by omega, by omega⟩
    rw [Int.toNat_of_nonneg h1, Int.toNat_of_nonneg h3]
    exact hm

/-- C1: for every board, mask and integer origin, `aplicar_habilidade` returns a board whose
    cell `(r, c)` holds 5 when the old cell holds 0 and the mask indices
    `i = r - orig_r + 2`, `j = c - orig_c + 2` both lie in `0..4` with `mat[i][j] = 1`,
    and holds the old value otherwise. -/
theorem aplicar_habilidade_spec (b : Board) (m : Mask) (orig_r orig_c : Int) :
    ∃ b', aplicar_habilidade b m orig_r orig_c = some b' ∧
      ∀ (r : Fin ROWS) (c : Fin COLS),
        Grid.cell b' r c =
          if Grid.cell b r c = 0 ∧
              (0 ≤ ((r : Nat) : Int) - orig_r + 2 ∧ ((r : Nat) : Int) - orig_r + 2 ≤ 4 ∧
               0 ≤ ((c : Nat) : Int) - orig_c + 2 ∧ ((c : Nat) : Int) - orig_c + 2 ≤ 4 ∧
               Grid.read m (((r : Nat) : Int) - orig_r + 2) (((c : Nat) : Int) - orig_c + 2)
                 = some 1)
          then 5 else Grid.cell b r c := by
  obtain ⟨b', e, hm⟩ := aplicar_habilidade_marked b m orig_r orig_c
  refine ⟨b', e, ?_⟩
  intro r c
  obtain ⟨hp, hn⟩ := hm r c
  rw [covered_iff] at hp hn
  split_ifs with h
  · exact hp h
  · exact hn h

/-- C2: ship preservation.  Every cell that holds 3 before `aplicar_habilidade` holds 3
    afterwards, and every cell whose value is not 0 is left unchanged. -/
theorem aplicar_habilidade_preserves_ships (b : Board) (m : Mask) (orig_r orig_c : Int) :
    ∃ b', aplicar_habilidade b m orig_r orig_c = some b' ∧
      ∀ (r : Fin ROWS) (c : Fin COLS),
        (Grid.cell b r c = 3 → Grid.cell b' r c = 3) ∧
        (Grid.cell b r c ≠ 0 → Grid.cell b' r c = Grid.cell b r c) := by
  obtain ⟨b', e, hm⟩ := aplicar_habilidade_marked b m orig_r orig_c
  refine ⟨b', e, ?_⟩
  intro r c
  have hne : Grid.cell b r c ≠ 0 → Grid.cell b' r c = Grid.cell b r c :=
    fun h => (hm r c).2 (fun hh => h hh.1)
  refine ⟨fun h3 => ?_, hne⟩
  rw [hne (by rw [h3]; decide), h3]

/-- Witness for C2: the full mask applied at `(1, 3)` over the ship of `main` leaves the
    ship cell `(2, 3)` at 3. -/
theorem aplicar_habilidade_preserves_ships_witness :
    ∃ b', aplicar_habilidade shipBoard (Grid.const SK_SIZE SK_SIZE 1) 1 3 = some b' ∧
      Grid.cell shipBoard 2 3 = 3 ∧ Grid.cell b' 2 3 = 3 := by
  obtain ⟨b', e, h⟩ :=
    aplicar_habilidade_preserves_ships shipBoard (Grid.const SK_SIZE SK_SIZE 1) 1 3
  exact ⟨b', e, by decide, (h 2 3).1 (by decide)⟩

/-- C3: every array access of `aplicar_habilidade` is in range.  With indexing that answers
    `none` outside `0..9` (board) and `0..4` (mask), the function returns a board for every
    board, mask and integer origin; and an iteration whose target lies outside the board
    returns the board it was given. -/
theorem aplicar_habilidade_in_bounds (b : Board) (m : Mask) (orig_r orig_c : Int) :
    (aplicar_habilidade b m orig_r orig_c).isSome = true ∧
      ∀ (i j : Fin SK_SIZE) (t : Board),
        (orig_r - 2 + (i : Nat) < 0 ∨ orig_r - 2 + (i : Nat) > 9 ∨
          orig_c - 2 + (j : Nat) < 0 ∨ orig_c - 2 + (j : Nat) > 9) →
        aplicar_habilidade_cell m orig_r orig_c i j t = some t := by
  constructor
  · obtain ⟨b', e, _⟩ := aplicar_habilidade_marked b m orig_r orig_c
    rw [e]
    rfl
  · intro i j t hout
    rw [aplicar_habilidade_cell_eq, Grid.read_fin, Option.some_bind]
    by_cases h1 : Grid.cell m i j ≠ 1
    · rw [if_pos h1]
    · rw [if_neg h1, if_pos (by omega)]

/-- Witness for C3: with the origin `(-1, 10)` the mask cell `(0, 0)` targets `(-3, 8)`,
    which is skipped. -/
theorem aplicar_habilidade_in_bounds_witness :
    (aplicar_habilidade shipBoard (Grid.const SK_SIZE SK_SIZE 1) (-1) 10).isSome = true ∧
      aplicar_habilidade_cell (Grid.const SK_SIZE SK_SIZE 1) (-1) 10 0 0 shipBoard
        = some shipBoard :=
  ⟨(aplicar_habilidade_in_bounds shipBoard (Grid.const SK_SIZE SK_SIZE 1) (-1) 10).1,
    (aplicar_habilidade_in_bounds shipBoard (Grid.const SK_SIZE SK_SIZE 1) (-1) 10).2 0 0
      shipBoard (by decide)⟩

/-- C4: idempotence.  Applying the same mask at the same origin to the result of
    `aplicar_habilidade` returns that result again. -/
theorem aplicar_habilidade_idempotent (b : Board) (m : Mask) (orig_r orig_c : Int) :
    ∃ b', aplicar_habilidade b m orig_r orig_c = some b' ∧
      aplicar_habilidade b' m orig_r orig_c = some b' := by
  obtain ⟨b1, e1, m1⟩ := aplicar_habilidade_marked b m orig_r orig_c
  obtain ⟨b2, e2, m2⟩ := aplicar_habilidade_marked b1 m orig_r orig_c
  refine ⟨b1, e1, ?_⟩
  rw [e2]
  have m12 : Marked (Covered m orig_r orig_c) b b2 :=
    Marked.congr (fun r c => or_self_iff) (Marked.comp m1 m2)
  rw [Marked.unique m12 m1]

/-! ## Loops that assign every cell -/

theorem foldlM_filled {n m : Nat} {ι : Type} (step : Grid n m → ι → Option (Grid n m))
    (S : ι → Fin n → Fin m → Prop) (f : Fin n → Fin m → Int) (l : List ι)
    (hstep : ∀ x ∈ l, ∀ t, ∃ t', step t x = some t' ∧ Filled (S x) f t t') :
    ∀ t, ∃ t', l.foldlM step t = some t' ∧ Filled (fun r c => ∃ x ∈ l, S x r c) f t t' := by
  induction l with
  | nil =>
    intro t
    exact ⟨t, rfl, fun r c => ⟨fun hh => by simp at hh, fun _ => rfl⟩⟩
  | cons x xs ih =>
    intro t
    obtain ⟨t1, e1, f1⟩ := hstep x (List.mem_cons_self x xs) t
    obtain ⟨t2, e2, f2⟩ := ih (fun y hy => hstep y (List.mem_cons_of_mem x hy)) t1
    refine ⟨t2, ?_, ?_⟩
    · rw [List.foldlM_cons, e1]
      exact e2
    · intro r c
      by_cases h2 : ∃ y ∈ xs, S y r c
      · refine ⟨fun _ => (f2 r c).1 h2, fun hh => ?_⟩
        obtain ⟨y, hy, hs⟩ := h2
        exact absurd ⟨y, List.mem_cons_of_mem x hy, hs⟩ hh
      · rw [(f2 r c).2 h2]
        by_cases h1 : S x r c
        · exact ⟨fun _ => (f1 r c).1 h1, fun hh => absurd ⟨x, List.mem_cons_self x xs, h1⟩ hh⟩
        · refine ⟨fun hh => ?_, fun _ => (f1 r c).2 h1⟩
          obtain ⟨y, hy, hs⟩ := hh
          rcases List.mem_cons.mp hy with rfl | hy'
          · exact absurd hs h1
          · exact absurd ⟨y, hy', hs⟩ h2

/-- An assignment `g[i][j] = v` with loop indices inside the array. -/
theorem write_filled {n m : Nat} (g : Grid n m) (i j : Nat) (hi : i < n) (hj : j < m)
    (v : Int) (f : Fin n → Fin m → Int) (hf : f ⟨i, hi⟩ ⟨j, hj⟩ = v) :
    ∃ g', Grid.write g i j v = some g' ∧
      Filled (fun r c => (r : Nat) = i ∧ (c : Nat) = j) f g g' := by
  obtain ⟨g', e, h⟩ := Grid.write_in_range g i j v (by omega)
  refine ⟨g', e, ?_⟩
  intro r c
  rw [h r c]
  constructor
  · rintro ⟨hr, hc⟩
    rw [if_pos ⟨by omega, by omega⟩, ← hf]
    congr 1
    · exact Fin.ext hr.symm
    · exact Fin.ext hc.symm
  · intro hn
    rw [if_neg]
    rintro ⟨hr, hc⟩
    exact hn ⟨by omega, by omega⟩

/-- A second assignment to the same cell replaces the first. -/
theorem write_overwrite {n m : Nat} (g g1 : Grid n m) (r c v w : Int)
    (h : Grid.write g r c v = some g1) : Grid.write g1 r c w = Grid.write g r c w := by
  by_cases hin : 0 ≤ r ∧ r < n ∧ 0 ≤ c ∧ c < m
  · obtain ⟨a, ea, ha⟩ := Grid.write_in_range g r c v hin
    obtain ⟨b, eb, hb⟩ := Grid.write_in_range g1 r c w hin
    obtain ⟨d, ed, hd⟩ := Grid.write_in_range g r c w hin
    rw [eb, ed]
    rw [h] at ea
    cases ea
    congr 1
    apply Grid.ext_cell
    intro r' c'
    rw [hb, hd, ha]
    split_ifs <;> rfl
  · unfold Grid.write at h
    rw [dif_neg hin] at h
    cases h

/-- Two nested loops over all indices that fill each visited cell with `f` produce the
    grid of `f`. -/
theorem fill_all {n m : Nat} (cellStep : Nat → Nat → Grid n m → Option (Grid n m))
    (f : Fin n → Fin m → Int)
    (hcell : ∀ i j, i < n → j < m → ∀ t, ∃ t', cellStep i j t = some t' ∧
      Filled (fun r c => (r : Nat) = i ∧ (c : Nat) = j) f t t')
    (g : Grid n m) :
    ∃ g', (List.range n).foldlM
        (fun t i => (List.range m).foldlM (fun t j => cellStep i j t) t) g = some g' ∧
      ∀ r c, Grid.cell g' r c = f r c := by
  obtain ⟨g', e, h⟩ := foldlM_filled
    (fun t i => (List.range m).foldlM (fun t j => cellStep i j t) t)
    (fun i r c => ∃ j ∈ List.range m, (r : Nat) = i ∧ (c : Nat) = j) f (List.range n)
    (fun i hi t => foldlM_filled (fun t j => cellStep i j t)
      (fun j r c => (r : Nat) = i ∧ (c : Nat) = j) f (List.range m)
      (fun j hj t => hcell i j (List.mem_range.mp hi) (List.mem_range.mp hj) t) t) g
  refine ⟨g', e, fun r c => (h r c).1 ?_⟩
  exact ⟨r, List.mem_range.mpr r.isLt, c, List.mem_range.mpr c.isLt, rfl, rfl⟩

theorem inicializar_tabuleiro_cells (tab : Board) :
    ∃ t', inicializar_tabuleiro tab = some t' ∧ ∀ r c, Grid.cell t' r c = 0 :=
  fill_all inicializar_tabuleiro_cell (fun _ _ => 0)
    (fun i j hi hj t => write_filled t i j hi hj 0 _ rfl) tab

theorem construir_cone_cell_eq (i j : Nat) (mat : Mask) (hi : i < SK_SIZE) (hj : j < SK_SIZE) :
    construir_cone_cell i j mat =
      Grid.write mat i j (if (i : Int) ≤ 2 ∧ |(j : Int) - 2| ≤ (i : Int) then 1 else 0) := by
  obtain ⟨g1, e1, _⟩ := Grid.write_in_range mat i j 0
    (by have : SK_SIZE = 5 := rfl; omega)
  have hd : (if (j : Int) - ((SK_SIZE / 2 : Nat) : Int) < 0
      then -((j : Int) - ((SK_SIZE / 2 : Nat) : Int))
      else (j : Int) - ((SK_SIZE / 2 : Nat) : Int)) = |(j : Int) - 2| := by
    have e2 : ((SK_SIZE / 2 : Nat) : Int) = 2 := rfl
    rw [e2]
    split_ifs with h
    · rw [abs_of_neg h]
    · rw [abs_of_nonneg (by omega)]
  unfold construir_cone_cell
  rw [e1]
  simp only [Option.bind_eq_bind, Option.some_bind, hd]
  by_cases h2 : (i : Int) ≤ 2
  · rw [if_pos h2]
    by_cases h3 : |(j : Int) - 2| ≤ (i : Int)
    · rw [if_pos h3, if_pos ⟨h2, h3⟩]
      exact write_overwrite mat g1 i j 0 1 e1
    · rw [if_neg h3, if_neg (fun hh => h3 hh.2)]
      exact e1.symm
  · rw [if_neg h2, if_neg (fun hh => h2 hh.1)]
    exact e1.symm

theorem construir_cone_cells (mat : Mask) :
    ∃ t', construir_cone mat = some t' ∧ ∀ i j : Fin SK_SIZE, Grid.cell t' i j =
      if ((i : Nat) : Int) ≤ 2 ∧ |((j : Nat) : Int) - 2| ≤ ((i : Nat) : Int) then 1 else 0 :=
  fill_all construir_cone_cell
    (fun i j => if ((i : Nat) : Int) ≤ 2 ∧ |((j : Nat) : Int) - 2| ≤ ((i : Nat) : Int)
      then 1 else 0)
    (fun i j hi hj t => by
      rw [construir_cone_cell_eq i j t hi hj]
      exact write_filled t i j hi hj _ _ rfl) mat

theorem construir_cone_eq (mat : Mask) : construir_cone mat = some cone_matrix := by
  obtain ⟨t', e, h⟩ := construir_cone_cells mat
  rw [e]
  congr 1
  apply Grid.ext_cell
  intro r c
  rw [h r c]
  revert r c
  decide

theorem construir_cruz_cell_eq (i j : Nat) (mat : Mask) :
    construir_cruz_cell i j mat =
      Grid.write mat i j (if (i : Int) = 2 ∨ (j : Int) = 2 then 1 else 0) := by
  have e2 : ((SK_SIZE / 2 : Nat) : Int) = 2 := rfl
  unfold construir_cruz_cell
  simp only [e2]
  by_cases h : (i : Int) = 2 ∨ (j : Int) = 2
  · rw [if_pos h, if_pos h]
  · rw [if_neg h, if_neg h]

theorem construir_cruz_cells (mat : Mask) :
    ∃ t', construir_cruz mat = some t' ∧ ∀ i j : Fin SK_SIZE, Grid.cell t' i j =
      if ((i : Nat) : Int) = 2 ∨ ((j : Nat) : Int) = 2 then 1 else 0 :=
  fill_all construir_cruz_cell
    (fun i j => if ((i : Nat) : Int) = 2 ∨ ((j : Nat) : Int) = 2 then 1 else 0)
    (fun i j hi hj t => by
      rw [construir_cruz_cell_eq i j t]
      exact write_filled t i j hi hj _ _ rfl) mat

theorem construir_cruz_eq (mat : Mask) : construir_cruz mat = some cruz_matrix := by
  obtain ⟨t', e, h⟩ := construir_cruz_cells mat
  rw [e]
  congr 1
  apply Grid.ext_cell
  intro r c
  rw [h r c]
  revert r c
  decide

theorem c_abs_eq (x : Int) : (if x - ((SK_SIZE / 2 : Nat) : Int) < 0
    then -(x - ((SK_SIZE / 2 : Nat) : Int)) else x - ((SK_SIZE / 2 : Nat) : Int)) = |x - 2| := by
  have e2 : ((SK_SIZE / 2 : Nat) : Int) = 2 := rfl
  rw [e2]
  split_ifs with h
  · rw [abs_of_neg h]
  · rw [abs_of_nonneg (by omega)]

theorem construir_octaedro_cell_eq (i j : Nat) (mat : Mask) :
    construir_octaedro_cell i j mat =
      Grid.write mat i j (if |(i : Int) - 2| + |(j : Int) - 2| ≤ 2 then 1 else 0) := by
  have e2 : ((SK_SIZE / 2 : Nat) : Int) = 2 := rfl
  unfold construir_octaedro_cell
  simp only [c_abs_eq]
  rw [e2]
  by_cases h : |(i : Int) - 2| + |(j : Int) - 2| ≤ 2
  · rw [if_pos h, if_pos h]
  · rw [if_neg h, if_neg h]

theorem construir_octaedro_cells (mat : Mask) :
    ∃ t', construir_octaedro mat = some t' ∧ ∀ i j : Fin SK_SIZE, Grid.cell t' i j =
      if |((i : Nat) : Int) - 2| + |((j : Nat) : Int) - 2| ≤ 2 then 1 else 0 :=
  fill_all construir_octaedro_cell
    (fun i j => if |((i : Nat) : Int) - 2| + |((j : Nat) : Int) - 2| ≤ 2 then 1 else 0)
    (fun i j hi hj t => by
      rw [construir_octaedro_cell_eq i j t]
      exact write_filled t i j hi hj _ _ rfl) mat

theorem construir_octaedro_eq (mat : Mask) : construir_octaedro mat = some octaedro_matrix := by
  obtain ⟨t', e, h⟩ := construir_octaedro_cells mat
  rw [e]
  congr 1
  apply Grid.ext_cell
  intro r c
  rw [h r c]
  revert r c
  decide

theorem inicializar_tabuleiro_eq (tab : Board) :
    inicializar_tabuleiro tab = some (Grid.const ROWS COLS 0) := by
  obtain ⟨t', e, h⟩ := inicializar_tabuleiro_cells tab
  rw [e]
  congr 1
  apply Grid.ext_cell
  intro r c
  rw [h r c]
  revert r c
  decide

/-- C5: for every initial content, `construir_cone` leaves cell `(i, j)` equal to 1 when
    `i ≤ 2` and `|j - 2| ≤ i` and equal to 0 otherwise; rows 3 and 4 are all 0; the result
    is the matrix 00100 / 01110 / 11111 / 00000 / 00000. -/
theorem construir_cone_spec (mat : Mask) :
    ∃ cone, construir_cone mat = some cone ∧
      (∀ i j : Fin SK_SIZE, Grid.cell cone i j =
        if (i : Nat) ≤ 2 ∧ |((j : Nat) : Int) - 2| ≤ ((i : Nat) : Int) then 1 else 0) ∧
      (∀ j : Fin SK_SIZE, Grid.cell cone 3 j = 0 ∧ Grid.cell cone 4 j = 0) ∧
      Grid.toLists cone =
        [[0, 0, 1, 0, 0], [0, 1, 1, 1, 0], [1, 1, 1, 1, 1], [0, 0, 0, 0, 0], [0, 0, 0, 0, 0]] :=
  ⟨cone_matrix, construir_cone_eq mat, by decide, by decide, by decide⟩

/-- C6: for every initial content, `construir_cruz` leaves cell `(i, j)` equal to 1 when
    `i = 2` or `j = 2` and equal to 0 otherwise. -/
theorem construir_cruz_spec (mat : Mask) :
    ∃ cruz, construir_cruz mat = some cruz ∧
      ∀ i j : Fin SK_SIZE, Grid.cell cruz i j =
        if (i : Nat) = 2 ∨ (j : Nat) = 2 then 1 else 0 :=
  ⟨cruz_matrix, construir_cruz_eq mat, by decide⟩

/-- C7: for every initial content, `construir_octaedro` leaves cell `(i, j)` equal to 1 when
    `|i - 2| + |j - 2| ≤ 2` and equal to 0 otherwise. -/
theorem construir_octaedro_spec (mat : Mask) :
    ∃ oct, construir_octaedro mat = some oct ∧
      ∀ i j : Fin SK_SIZE, Grid.cell oct i j =
        if |((i : Nat) : Int) - 2| + |((j : Nat) : Int) - 2| ≤ 2 then 1 else 0 :=
  ⟨octaedro_matrix, construir_octaedro_eq mat, by decide⟩

/-- C9: for every mask and origin, `aplicar_habilidade` applied to the board produced by
    `inicializar_tabuleiro` returns a board whose cells are all 0 or 5. -/
theorem aplicar_habilidade_fresh_board (tab : Board) (mat : Mask) (orig_r orig_c : Int) :
    ∃ b0 b', inicializar_tabuleiro tab = some b0 ∧
      aplicar_habilidade b0 mat orig_r orig_c = some b' ∧
      ∀ (r : Fin ROWS) (c : Fin COLS), Grid.cell b' r c = 0 ∨ Grid.cell b' r c = 5 := by
  obtain ⟨b0, e0, h0⟩ := inicializar_tabuleiro_cells tab
  obtain ⟨b', e, hm⟩ := aplicar_habilidade_marked b0 mat orig_r orig_c
  refine ⟨b0, b', e0, e, ?_⟩
  intro r c
  by_cases hp : Grid.cell b0 r c = 0 ∧ Covered mat orig_r orig_c r c
  · exact Or.inr ((hm r c).1 hp)
  · exact Or.inl (by rw [(hm r c).2 hp]; exact h0 r c)

/-- C8: the board `main` prints.  Whatever the initial contents of the local arrays, the
    board after the three overlays has rows 0055500000 / 0555550000 / 0033350000 /
    0000050000 / 0005555500 / 0050050000 / 0555050300 / 5555500300 / 0555000000 /
    0050000000; cell `(2, 3)` holds 3 and cell `(1, 3)` holds 5. -/
theorem main_tabuleiro_spec (tab : Board) (cone cruz octaedro : Mask) :
    ∃ b, main_tabuleiro tab cone cruz octaedro = some b ∧
      Grid.toLists b =
        [[0, 0, 5, 5, 5, 0, 0, 0, 0, 0],
         [0, 5, 5, 5, 5, 5, 0, 0, 0, 0],
         [0, 0, 3, 3, 3, 5, 0, 0, 0, 0],
         [0, 0, 0, 0, 0, 5, 0, 0, 0, 0],
         [0, 0, 0, 5, 5, 5, 5, 5, 0, 0],
         [0, 0, 5, 0, 0, 5, 0, 0, 0, 0],
         [0, 5, 5, 5, 0, 5, 0, 3, 0, 0],
         [5, 5, 5, 5, 5, 0, 0, 3, 0, 0],
         [0, 5, 5, 5, 0, 0, 0, 0, 0, 0],
         [0, 0, 5, 0, 0, 0, 0, 0, 0, 0]] ∧
      Grid.cell b 2 3 = 3 ∧ Grid.cell b 1 3 = 5 := by
  unfold main_tabuleiro
  rw [inicializar_tabuleiro_eq, construir_cone_eq, construir_cruz_eq, construir_octaedro_eq]
  decide

/-! ## Printer -/

theorem lines_of_line (l rest : List Char) (hl : '\n' ∉ l) :
    lines_of (l ++ '\n' :: rest) = l :: lines_of rest := by
  induction l with
  | nil => simp [lines_of]
  | cons c cs ih =>
    have hc : c ≠ '\n' := fun h => hl (by rw [h]; exact List.mem_cons_self _ _)
    have hcs : '\n' ∉ cs := fun h => hl (List.mem_cons_of_mem _ h)
    rw [List.cons_append, lines_of, if_neg hc, ih hcs]

theorem concat_text_cons (s : String) (ss : List String) :
    concat_text (s :: ss) = s ++ concat_text ss := rfl

theorem lines_of_concat (rows : List String) (h : ∀ s ∈ rows, '\n' ∉ s.data) :
    lines_of (concat_text (rows.map fun s => s ++ "\n")).data = rows.map String.data := by
  induction rows with
  | nil => rfl
  | cons s ss ih =>
    rw [List.map_cons, concat_text_cons, String.data_append, String.data_append]
    have e : ("\n" : String).data = ['\n'] := rfl
    rw [e, List.append_assoc, List.singleton_append,
      lines_of_line _ _ (h s (List.mem_cons_self _ _)),
      ih (fun t ht => h t (List.mem_cons_of_mem _ ht)), List.map_cons]

theorem digitChar_ne_newline : ∀ k : Nat, k < 10 → Nat.digitChar k ≠ '\n' := by
  decide

theorem toDigitsCore_no_newline (fuel n : Nat) (ds : List Char) (h : '\n' ∉ ds) :
    '\n' ∉ Nat.toDigitsCore 10 fuel n ds := by
  induction fuel generalizing n ds with
  | zero => simpa [Nat.toDigitsCore] using h
  | succ k ih =>
    have hc : '\n' ∉ Nat.digitChar (n % 10) :: ds := by
      intro hm
      rcases List.mem_cons.mp hm with e | e
      · exact digitChar_ne_newline _ (Nat.mod_lt n (by decide)) e.symm
      · exact h e
    unfold Nat.toDigitsCore
    simp only
    split_ifs
    · exact hc
    · exact ih _ _ hc

theorem printf_d_no_newline (v : Int) : '\n' ∉ (printf_d v).data := by
  have hr : ∀ n : Nat, '\n' ∉ (Nat.repr n).data := fun n =>
    toDigitsCore_no_newline _ _ [] (List.not_mem_nil _)
  unfold printf_d
  split_ifs
  · rw [String.data_append]
    intro hm
    rcases List.mem_append.mp hm with e | e
    · revert e; decide
    · exact hr _ e
  · exact hr _

theorem concat_text_no_newline (parts : List String) (h : ∀ s ∈ parts, '\n' ∉ s.data) :
    '\n' ∉ (concat_text parts).data := by
  induction parts with
  | nil => exact List.not_mem_nil _
  | cons s ss ih =>
    rw [concat_text_cons, String.data_append]
    intro hm
    rcases List.mem_append.mp hm with e | e
    · exact h s (List.mem_cons_self _ _) e
    · exact ih (fun t ht => h t (List.mem_cons_of_mem _ ht)) e

theorem row_text_no_newline (tab : Board) (i : Fin ROWS) : '\n' ∉ (row_text tab i).data := by
  apply concat_text_no_newline
  intro s hs
  obtain ⟨j, _, rfl⟩ := List.mem_map.mp hs
  rw [String.data_append]
  intro hm
  rcases List.mem_append.mp hm with e | e
  · exact printf_d_no_newline _ e
  · revert e; decide

/-- A loop whose every iteration appends a text appends their concatenation. -/
theorem foldlM_append_text {ι : Type} (step : ι → String → Option String) (txt : ι → String)
    (l : List ι) (h : ∀ x ∈ l, ∀ o, step x o = some (o ++ txt x)) :
    ∀ o, l.foldlM (fun o x => step x o) o = some (o ++ concat_text (l.map txt)) := by
  induction l with
  | nil => intro o; simp [concat_text]
  | cons x xs ih =>
    intro o
    rw [List.foldlM_cons, h x (List.mem_cons_self _ _) o]
    simp only [Option.bind_eq_bind, Option.some_bind]
    rw [ih (fun y hy => h y (List.mem_cons_of_mem _ hy)), List.map_cons, concat_text_cons,
      String.append_assoc]

theorem imprimir_tabuleiro_row_eq (tab : Board) (i : Fin ROWS) (out : String) :
    imprimir_tabuleiro_row tab i out = some (out ++ (row_text tab i ++ "\n")) := by
  unfold imprimir_tabuleiro_row
  rw [← List.map_coe_finRange COLS, List.foldlM_map,
    foldlM_append_text (fun (j : Fin COLS) o => imprimir_tabuleiro_cell tab i j o)
      (fun j => printf_d (Grid.cell tab i j) ++ " ") (List.finRange COLS)
      (fun j _ o => by
        show imprimir_tabuleiro_cell tab i j o = _
        unfold imprimir_tabuleiro_cell
        rw [Grid.read_fin]
        rfl)]
  simp only [Option.bind_eq_bind, Option.some_bind]
  rw [String.append_assoc]
  rfl

theorem imprimir_tabuleiro_eq (tab : Board) (out : String) :
    imprimir_tabuleiro tab out =
      some (out ++ (header_line ++ "\n" ++ "\n" ++
        concat_text ((List.finRange ROWS).map fun i => row_text tab i ++ "\n"))) := by
  unfold imprimir_tabuleiro
  rw [← List.map_coe_finRange ROWS, List.foldlM_map,
    foldlM_append_text (fun (i : Fin ROWS) o => imprimir_tabuleiro_row tab i o)
      (fun i => row_text tab i ++ "\n") (List.finRange ROWS)
      (fun i _ o => imprimir_tabuleiro_row_eq tab i o)]
  congr 1
  rw [String.append_assoc out]
  rfl

theorem imprimir_tabuleiro_text_lines (tab : Board) :
    lines_of (header_line ++ "\n" ++ "\n" ++
        concat_text ((List.finRange ROWS).map fun i => row_text tab i ++ "\n")).data =
      header_line.data :: [] ::
        (List.finRange ROWS).map (fun i => (row_text tab i).data) := by
  have e : ("\n" : String).data = ['\n'] := rfl
  have hh : '\n' ∉ header_line.data := by decide
  have hrows := lines_of_concat ((List.finRange ROWS).map fun i => row_text tab i)
    (fun s hs => by
      obtain ⟨i, _, rfl⟩ := List.mem_map.mp hs
      exact row_text_no_newline tab i)
  rw [List.map_map, List.map_map] at hrows
  rw [String.data_append, String.data_append, String.data_append, e, List.append_assoc,
    List.append_assoc, List.singleton_append, lines_of_line _ _ hh, List.singleton_append,
    lines_of, if_pos rfl]
  exact congrArg (fun t => header_line.data :: [] :: t) hrows

/-- C10, as the code does it: `imprimir_tabuleiro` appends the header line, then an empty
    line (the header ends in two line feeds), then exactly 10 lines, line `i` being the 10
    integers of board row `i` in order, each followed by a single space; 12 lines in all. -/
theorem imprimir_tabuleiro_spec (tab : Board) (out : String) :
    ∃ txt, imprimir_tabuleiro tab out = some (out ++ txt) ∧
      txt = header_line ++ "\n" ++ "\n" ++
        concat_text ((List.finRange ROWS).map fun i => row_text tab i ++ "\n") ∧
      lines_of txt.data = header_line.data :: [] ::
        (List.finRange ROWS).map (fun i => (row_text tab i).data) ∧
      (lines_of txt.data).length = 12 := by
  refine ⟨_, imprimir_tabuleiro_eq tab out, rfl, imprimir_tabuleiro_text_lines tab, ?_⟩
  rw [imprimir_tabuleiro_text_lines tab]
  simp

/-- C10 as stated fails on the all-water board: the output has 12 lines, not 11, and the
    line right after the header is empty instead of holding the integers of row 0. -/
theorem imprimir_tabuleiro_not_eleven_lines :
    ∃ txt, imprimir_tabuleiro (Grid.const ROWS COLS 0) "" = some txt ∧
      (lines_of txt.data).length ≠ 11 ∧
      (lines_of txt.data).length = 12 ∧
      (lines_of txt.data).get? 1 = some [] ∧
      (row_text (Grid.const ROWS COLS 0) 0).data ≠ [] ∧
      lines_of txt.data ≠ header_line.data ::
        (List.finRange ROWS).map (fun i => (row_text (Grid.const ROWS COLS 0) i).data) := by
  refine ⟨_, imprimir_tabuleiro_eq _ _, ?_⟩
  rw [String.empty_append, imprimir_tabuleiro_text_lines]
  decide

/-- Board indices are insensitive to 32-bit wrap-around: for an origin that fits an `int`
    and a loop index below `SK_SIZE`, the wrapped value of `orig - center + i` lies in
    `0..9` exactly when the unbounded value does, and then both agree. -/
theorem board_index_no_wrap (orig : Int) (i : Nat)
    (ho : -2147483648 ≤ orig ∧ orig ≤ 2147483647) (hi : i < 5) :
    ((0 ≤ wrap32 (wrap32 (orig - 2) + i) ∧ wrap32 (wrap32 (orig - 2) + i) < 10) ↔
      (0 ≤ orig - 2 + i ∧ orig - 2 + i < 10)) ∧
    ((0 ≤ orig - 2 + i ∧ orig - 2 + i < 10) →
      wrap32 (wrap32 (orig - 2) + i) = orig - 2 + i) := by
  unfold wrap32
  omega

/-! ## Shapes of the masks -/

/-- C11: in the mask built by `construir_cone`, every row `i` with `0 ≤ i ≤ 2` has exactly
    `2 i + 1` cells equal to 1, and they are exactly the columns `2 - i .. 2 + i`: one cell
    at row 0, five cells at row 2. -/
theorem construir_cone_rows (mat : Mask) :
    ∃ cone, construir_cone mat = some cone ∧
      (∀ i : Fin SK_SIZE, (i : Nat) ≤ 2 →
        Grid.row_count cone i 1 = 2 * (i : Nat) + 1 ∧
        ∀ j : Fin SK_SIZE, Grid.cell cone i j = 1 ↔
          ((2 : Int) - (i : Nat) ≤ (j : Nat) ∧ ((j : Nat) : Int) ≤ 2 + (i : Nat))) ∧
      Grid.row_count cone 0 1 = 1 ∧ Grid.row_count cone 2 1 = 5 :=
  ⟨cone_matrix, construir_cone_eq mat, by decide, by decide, by decide⟩

/-- Witness for C11: row 1 of the cone built from the all-zero grid has 3 cells equal to 1. -/
theorem construir_cone_rows_witness :
    ∃ cone, construir_cone (Grid.const SK_SIZE SK_SIZE 0) = some cone ∧
      Grid.row_count cone 1 1 = 3 := by
  obtain ⟨cone, e, h, _⟩ := construir_cone_rows (Grid.const SK_SIZE SK_SIZE 0)
  exact ⟨cone, e, (h 1 (by decide)).1⟩

/-- C12: the mask built by `construir_octaedro` has exactly 13 cells equal to 1 and 12 cells
    equal to 0. -/
theorem construir_octaedro_count (mat : Mask) :
    ∃ oct, construir_octaedro mat = some oct ∧
      Grid.count oct 1 = 13 ∧ Grid.count oct 0 = 12 :=
  ⟨octaedro_matrix, construir_octaedro_eq mat, by decide, by decide⟩

/-- C13: the mask built by `construir_cruz` has exactly 9 cells equal to 1, namely the 5 cells
    of row 2 and the 5 cells of column 2 with the centre counted once, and 16 cells equal
    to 0. -/
theorem construir_cruz_count (mat : Mask) :
    ∃ cruz, construir_cruz mat = some cruz ∧
      Grid.count cruz 1 = 9 ∧ Grid.count cruz 0 = 16 ∧
      Grid.row_count cruz 2 1 = 5 ∧ Grid.col_count cruz 2 1 = 5 ∧ Grid.cell cruz 2 2 = 1 ∧
      (∀ i j : Fin SK_SIZE, Grid.cell cruz i j = 1 ↔ (i = 2 ∨ j = 2)) :=
  ⟨cruz_matrix, construir_cruz_eq mat, by decide, by decide, by decide, by decide, by decide,
    by decide⟩

/-- C14: for every initial content of the board, `inicializar_tabuleiro` leaves every cell
    `(i, j)` with `0 ≤ i, j ≤ 9` equal to 0. -/
theorem inicializar_tabuleiro_spec (tab : Board) :
    ∃ t', inicializar_tabuleiro tab = some t' ∧
      ∀ (i : Fin ROWS) (j : Fin COLS),
        Grid.cell t' i j = 0 ∧ Grid.read t' (i : Nat) (j : Nat) = some 0 := by
  obtain ⟨t', e, h⟩ := inicializar_tabuleiro_cells tab
  refine ⟨t', e, fun i j => ⟨h i j, ?_⟩⟩
  rw [Grid.read_fin, h i j]

/-! ## Algebra of overlays -/

/-- C17: overlays commute.  Applying `m1` at `o1` and then `m2` at `o2` returns the same board
    as applying `m2` at `o2` and then `m1` at `o1`. -/
theorem aplicar_habilidade_comm (b : Board) (m1 m2 : Mask) (r1 c1 r2 c2 : Int) :
    ∃ b1 b2 b12, aplicar_habilidade b m1 r1 c1 = some b1 ∧
      aplicar_habilidade b1 m2 r2 c2 = some b12 ∧
      aplicar_habilidade b m2 r2 c2 = some b2 ∧
      aplicar_habilidade b2 m1 r1 c1 = some b12 := by
  obtain ⟨b1, e1, h1⟩ := aplicar_habilidade_marked b m1 r1 c1
  obtain ⟨b12, e12, h12⟩ := aplicar_habilidade_marked b1 m2 r2 c2
  obtain ⟨b2, e2, h2⟩ := aplicar_habilidade_marked b m2 r2 c2
  obtain ⟨b21, e21, h21⟩ := aplicar_habilidade_marked b2 m1 r1 c1
  refine ⟨b1, b2, b12, e1, e12, e2, ?_⟩
  rw [e21]
  congr 1
  exact Marked.unique (Marked.congr (fun r c => Or.comm) (Marked.comp h2 h21))
    (Marked.comp h1 h12)

theorem covered_mono (m m2 : Mask) (orig_r orig_c : Int)
    (hsub : ∀ i j : Fin SK_SIZE, Grid.cell m i j = 1 → Grid.cell m2 i j = 1)
    (r : Fin ROWS) (c : Fin COLS) (h : Covered m orig_r orig_c r c) :
    Covered m2 orig_r orig_c r c := by
  obtain ⟨i, hi, j, hj, hm, er, ec⟩ := h
  refine ⟨i, hi, j, hj, ?_, er, ec⟩
  have hi' := List.mem_range.mp hi
  have hj' := List.mem_range.mp hj
  have e1 := Grid.read_fin m ⟨i, hi'⟩ ⟨j, hj'⟩
  have e2 := Grid.read_fin m2 ⟨i, hi'⟩ ⟨j, hj'⟩
  simp only at e1 e2
  rw [e1] at hm
  rw [e2, hsub _ _ (Option.some.inj hm)]

/-- A mask contained in a second one is absorbed by it at the same origin. -/
theorem aplicar_habilidade_absorb (b : Board) (m m2 : Mask) (orig_r orig_c : Int)
    (hsub : ∀ i j : Fin SK_SIZE, Grid.cell m i j = 1 → Grid.cell m2 i j = 1) :
    ∃ b1 b2, aplicar_habilidade b m orig_r orig_c = some b1 ∧
      aplicar_habilidade b1 m2 orig_r orig_c = some b2 ∧
      aplicar_habilidade b m2 orig_r orig_c = some b2 := by
  obtain ⟨b1, e1, h1⟩ := aplicar_habilidade_marked b m orig_r orig_c
  obtain ⟨b2, e2, h2⟩ := aplicar_habilidade_marked b1 m2 orig_r orig_c
  obtain ⟨b3, e3, h3⟩ := aplicar_habilidade_marked b m2 orig_r orig_c
  refine ⟨b1, b2, e1, e2, ?_⟩
  rw [e3]
  congr 1
  refine Marked.unique h3 (Marked.congr (fun r c => ?_) (Marked.comp h1 h2))
  exact ⟨fun h => h.elim (covered_mono m m2 orig_r orig_c hsub r c) id, Or.inr⟩

/-- C18: the cone and the cross are cellwise contained in the diamond, the cone being the
    diamond restricted to rows 0..2; so at any origin, applying the cone (or the cross) and
    then the diamond returns the same board as applying the diamond alone. -/
theorem cone_cruz_absorbed_by_octaedro (m0 m1 m2 : Mask) :
    ∃ cone cruz oct, construir_cone m0 = some cone ∧ construir_cruz m1 = some cruz ∧
      construir_octaedro m2 = some oct ∧
      (∀ i j : Fin SK_SIZE, Grid.cell cone i j = 1 → Grid.cell oct i j = 1) ∧
      (∀ i j : Fin SK_SIZE, Grid.cell cruz i j = 1 → Grid.cell oct i j = 1) ∧
      (∀ i j : Fin SK_SIZE,
        Grid.cell cone i j = if (i : Nat) ≤ 2 then Grid.cell oct i j else 0) ∧
      ∀ (b : Board) (orig_r orig_c : Int), ∃ bc bx bo,
        aplicar_habilidade b cone orig_r orig_c = some bc ∧
        aplicar_habilidade bc oct orig_r orig_c = some bo ∧
        aplicar_habilidade b cruz orig_r orig_c = some bx ∧
        aplicar_habilidade bx oct orig_r orig_c = some bo ∧
        aplicar_habilidade b oct orig_r orig_c = some bo := by
  have hc : ∀ i j : Fin SK_SIZE,
      Grid.cell cone_matrix i j = 1 → Grid.cell octaedro_matrix i j = 1 := by decide
  have hx : ∀ i j : Fin SK_SIZE,
      Grid.cell cruz_matrix i j = 1 → Grid.cell octaedro_matrix i j = 1 := by decide
  refine ⟨cone_matrix, cruz_matrix, octaedro_matrix, construir_cone_eq m0,
    construir_cruz_eq m1, construir_octaedro_eq m2, hc, hx, by decide, ?_⟩
  intro b orig_r orig_c
  obtain ⟨bc, bo, e1, e2, e3⟩ :=
    aplicar_habilidade_absorb b cone_matrix octaedro_matrix orig_r orig_c hc
  obtain ⟨bx, bo2, e4, e5, e6⟩ :=
    aplicar_habilidade_absorb b cruz_matrix octaedro_matrix orig_r orig_c hx
  rw [e3] at e6
  cases e6
  exact ⟨bc, bx, bo, e1, e2, e4, e5, e3⟩

/-- Witness for C18: on the board of `main` with its ships, at the origin `(7, 2)`. -/
theorem cone_cruz_absorbed_by_octaedro_witness :
    ∃ cone oct bc bo, construir_cone (Grid.const SK_SIZE SK_SIZE 0) = some cone ∧
      construir_octaedro (Grid.const SK_SIZE SK_SIZE 0) = some oct ∧
      Grid.cell cone 1 1 = 1 ∧ Grid.cell oct 1 1 = 1 ∧
      aplicar_habilidade navios_board cone 7 2 = some bc ∧
      aplicar_habilidade bc oct 7 2 = some bo ∧
      aplicar_habilidade navios_board oct 7 2 = some bo := by
  obtain ⟨cone, cruz, oct, e0, _, e2, hc, _, _, h⟩ :=
    cone_cruz_absorbed_by_octaedro (Grid.const SK_SIZE SK_SIZE 0)
      (Grid.const SK_SIZE SK_SIZE 0) (Grid.const SK_SIZE SK_SIZE 0)
  obtain ⟨bc, bx, bo, a1, a2, _, _, a5⟩ := h navios_board 7 2
  have h11 : Grid.cell cone 1 1 = 1 := by
    have e := construir_cone_eq (Grid.const SK_SIZE SK_SIZE 0)
    rw [e0] at e
    cases e
    decide
  exact ⟨cone, oct, bc, bo, e0, e2, h11, hc 1 1 h11, a1, a2, a5⟩

theorem not_covered_far (m : Mask) (orig_r orig_c : Int)
    (hfar : orig_r ≤ -3 ∨ orig_r ≥ 12 ∨ orig_c ≤ -3 ∨ orig_c ≥ 12)
    (r : Fin ROWS) (c : Fin COLS) : ¬ Covered m orig_r orig_c r c := by
  rw [covered_iff]
  have hr : (r : Nat) < 10 := r.isLt
  have hc : (c : Nat) < 10 := c.isLt
  omega

theorem covered_edge (orig_r : Int) (r : Fin ROWS) (c : Fin COLS)
    (h : ((r : Nat) : Int) - orig_r + 2 = 0 ∨ ((r : Nat) : Int) - orig_r + 2 = 4) :
    Covered (Grid.const SK_SIZE SK_SIZE 1) orig_r ((c : Nat) : Int) r c := by
  rw [covered_iff]
  have e2 : ((c : Nat) : Int) - ((c : Nat) : Int) + 2 = 2 := by omega
  rw [e2]
  rcases h with h | h <;> rw [h] <;> decide

theorem const_zero_cell (r : Fin ROWS) (c : Fin COLS) :
    Grid.cell (Grid.const ROWS COLS 0) r c = 0 := by
  revert r c
  decide

theorem aplicar_habilidade_edge_changes (orig_r : Int) (r : Fin ROWS) (c : Fin COLS)
    (h : ((r : Nat) : Int) - orig_r + 2 = 0 ∨ ((r : Nat) : Int) - orig_r + 2 = 4) :
    ∃ b', aplicar_habilidade (Grid.const ROWS COLS 0) (Grid.const SK_SIZE SK_SIZE 1)
        orig_r ((c : Nat) : Int) = some b' ∧ b' ≠ Grid.const ROWS COLS 0 := by
  obtain ⟨b', e, hm⟩ := aplicar_habilidade_marked (Grid.const ROWS COLS 0)
    (Grid.const SK_SIZE SK_SIZE 1) orig_r ((c : Nat) : Int)
  refine ⟨b', e, fun hb => ?_⟩
  have h5 := (hm r c).1 ⟨const_zero_cell r c, covered_edge orig_r r c h⟩
  rw [hb, const_zero_cell] at h5
  exact absurd h5 (by decide)

/-- C19: an origin with `orig_r ≤ -3`, `orig_r ≥ 12`, `orig_c ≤ -3` or `orig_c ≥ 12` projects
    no mask cell onto the board, so `aplicar_habilidade` returns the board unchanged; the
    bounds are tight, since at `orig_r = -2` and at `orig_r = 11`, for every `orig_c` in
    `0..9`, the all-ones mask changes the all-water board. -/
theorem aplicar_habilidade_far_origin :
    (∀ (b : Board) (m : Mask) (orig_r orig_c : Int),
      (orig_r ≤ -3 ∨ orig_r ≥ 12 ∨ orig_c ≤ -3 ∨ orig_c ≥ 12) →
        aplicar_habilidade b m orig_r orig_c = some b) ∧
    (∀ c : Fin COLS, ∃ (m : Mask) (b b' : Board),
      aplicar_habilidade b m (-2) ((c : Nat) : Int) = some b' ∧ b' ≠ b) ∧
    (∀ c : Fin COLS, ∃ (m : Mask) (b b' : Board),
      aplicar_habilidade b m 11 ((c : Nat) : Int) = some b' ∧ b' ≠ b) := by
  refine ⟨fun b m orig_r orig_c hfar => ?_, fun c => ?_, fun c => ?_⟩
  · obtain ⟨b', e, hm⟩ := aplicar_habilidade_marked b m orig_r orig_c
    rw [e]
    congr 1
    exact Marked.unique hm
      (Marked.of_unchanged (fun r c _ => not_covered_far m orig_r orig_c hfar r c))
  · obtain ⟨b', e, hne⟩ := aplicar_habilidade_edge_changes (-2) 0 c (Or.inr (by decide))
    exact ⟨_, _, b', e, hne⟩
  · obtain ⟨b', e, hne⟩ := aplicar_habilidade_edge_changes 11 9 c (Or.inl (by decide))
    exact ⟨_, _, b', e, hne⟩

/-- Witness for C19: the all-ones mask at the origin `(-3, 4)` leaves the board of `main`
    with its ships as it is. -/
theorem aplicar_habilidade_far_origin_witness :
    ((-3 : Int) ≤ -3 ∨ (-3 : Int) ≥ 12 ∨ (4 : Int) ≤ -3 ∨ (4 : Int) ≥ 12) ∧
      aplicar_habilidade navios_board (Grid.const SK_SIZE SK_SIZE 1) (-3) 4
        = some navios_board :=
  ⟨by decide, aplicar_habilidade_far_origin.1 navios_board (Grid.const SK_SIZE SK_SIZE 1)
    (-3) 4 (by decide)⟩

/-! ## The cone in the scenario of `main` -/

theorem main_navios_eq (tab : Board) : main_navios tab = some navios_board := by
  unfold main_navios
  rw [inicializar_tabuleiro_eq]
  decide

/-- The overlays of `main` start from the board with the ships. -/
theorem main_tabuleiro_eq_navios (tab : Board) (cone cruz octaedro : Mask) :
    main_tabuleiro tab cone cruz octaedro =
      (main_navios tab).bind fun t =>
        (construir_cone cone).bind fun cone =>
          (construir_cruz cruz).bind fun cruz =>
            (construir_octaedro octaedro).bind fun octaedro =>
              (aplicar_habilidade t cone 1 3).bind fun t =>
                (aplicar_habilidade t cruz 4 5).bind fun t =>
                  aplicar_habilidade t octaedro 7 2 := by
  unfold main_tabuleiro main_navios
  simp only [← Option.bind_eq_bind, bind_assoc, pure_bind, bind_pure]

theorem cone_hits_2_3 : ∀ i j : Fin SK_SIZE, ¬ Hits cone_matrix 1 3 i j 2 3 := by
  unfold Hits
  decide

theorem cone_not_covered_2_3 : ¬ Covered cone_matrix 1 3 2 3 := by
  rintro ⟨i, hi, j, hj, h⟩
  exact cone_hits_2_3 ⟨i, List.mem_range.mp hi⟩ ⟨j, List.mem_range.mp hj⟩ h

/-- C15 as stated fails: the cone mask holds 0, not 1, at the index `(3, 2)` projected onto
    board cell `(2, 3)`, and the cone at origin `(1, 3)` leaves `(2, 3)` at 0 even on an
    all-water board. -/
theorem cone_does_not_cover_ship :
    ∃ cone, construir_cone (Grid.const SK_SIZE SK_SIZE 0) = some cone ∧
      Grid.read cone (2 - 1 + 2) (3 - 3 + 2) = some 0 ∧
      Grid.read cone (2 - 1 + 2) (3 - 3 + 2) ≠ some 1 ∧
      ∃ t', aplicar_habilidade (Grid.const ROWS COLS 0) cone 1 3 = some t' ∧
        Grid.cell t' 2 3 = 0 := by
  refine ⟨cone_matrix, construir_cone_eq _, ?_⟩
  decide

/-- C15, as the code does it: in the scenario of `main` the cone overlay does not cover the
    ship cell `(2, 3)`.  With the cone applied at origin `(1, 3)` the mask cell projected onto
    board cell `(2, 3)`, index `(2 - 1 + 2, 3 - 3 + 2) = (3, 2)`, has value 0; no mask cell
    holding 1 is projected onto `(2, 3)`; the cell holds 3 before and after, and the cone at
    that origin leaves cell `(2, 3)` of every board as it is, ship or water. -/
theorem cone_leaves_ship_cell (tab : Board) (mat : Mask) :
    ∃ b cone b', main_navios tab = some b ∧ construir_cone mat = some cone ∧
      Grid.read cone (2 - 1 + 2) (3 - 3 + 2) = some 0 ∧
      (∀ i j : Fin SK_SIZE, ¬ Hits cone 1 3 i j 2 3) ∧
      Grid.cell b 2 3 = 3 ∧
      aplicar_habilidade b cone 1 3 = some b' ∧ Grid.cell b' 2 3 = 3 ∧
      ∀ t : Board, ∃ t', aplicar_habilidade t cone 1 3 = some t' ∧
        Grid.cell t' 2 3 = Grid.cell t 2 3 := by
  have hall : ∀ t : Board, ∃ t', aplicar_habilidade t cone_matrix 1 3 = some t' ∧
      Grid.cell t' 2 3 = Grid.cell t 2 3 := by
    intro t
    obtain ⟨t', e, hm⟩ := aplicar_habilidade_marked t cone_matrix 1 3
    exact ⟨t', e, (hm 2 3).2 (fun hh => cone_not_covered_2_3 hh.2)⟩
  obtain ⟨b', e, hb⟩ := hall navios_board
  exact ⟨navios_board, cone_matrix, b', main_navios_eq tab, construir_cone_eq mat, by decide,
    cone_hits_2_3, by decide, e, by rw [hb]; decide, hall⟩

end BatalhaNaval
